import Mathlib

/-
Verification of the Superset email report notification subsystem
(superset/reports/notifications/email.py) against its specification.

The development shallowly embeds the renderer (EmailNotification._get_content),
the subject builder (_get_subject), the recipient resolver (_get_to) and the
dispatcher (send).  HTML input is modelled at the token level: an HTML
fragment is a list of tokens (text, start tag with attributes, end tag), the
shape the html5lib tokenizer used by the bleach library feeds to its
sanitizer.  The bleach.clean sanitizer (third-party library, called with its
default keyword arguments apart from the tags allow-list) is modelled
faithfully to its documented semantics: tag and attribute names are
lowercased; a tag on the allow-list is re-serialized keeping only attributes
on the attribute allow-list (attribute values re-escaped); a tag not on the
allow-list is not stripped but escaped wholesale into inert text, because
bleach.clean defaults to strip=False; character data is HTML-escaped.
-/

namespace EmailReport

/-- Attribute of an HTML tag: a name and a value, as produced by the
html5lib tokenizer. -/
structure HtmlAttr where
  name : String
  value : String
deriving DecidableEq

/-- Token-level model of an HTML fragment: character data, a start tag with
its attributes, or an end tag. -/
inductive HtmlToken where
  | text (s : String)
  | startTag (name : String) (attrs : List HtmlAttr)
  | endTag (name : String)
deriving DecidableEq

/-- Lowercase a character list, as html5lib lowercases tag and attribute
names. -/
def lowerChars (l : List Char) : List Char := l.map Char.toLower

/-- Lowercase a string. -/
def lowerStr (s : String) : String := ⟨lowerChars s.data⟩

/-- HTML escaping of one character of character data, as performed by the
html5lib serializer used by bleach: ampersand, less-than and greater-than
become entities. -/
def escapeChar (c : Char) : List Char :=
  if c = '&' then ['&', 'a', 'm', 'p', ';']
  else if c = '<' then ['&', 'l', 't', ';']
  else if c = '>' then ['&', 'g', 't', ';']
  else [c]

/-- HTML escaping of character data. -/
def escapeChars (l : List Char) : List Char := (l.map escapeChar).flatten

/-- Escaping of one character of an attribute value: like character data,
with the double quote also escaped since serialized values are
double-quoted. -/
def escapeAttrChar (c : Char) : List Char :=
  if c = '&' then ['&', 'a', 'm', 'p', ';']
  else if c = '<' then ['&', 'l', 't', ';']
  else if c = '>' then ['&', 'g', 't', ';']
  else if c = '"' then ['&', 'q', 'u', 'o', 't', ';']
  else [c]

/-- Escaping of an attribute value. -/
def escapeAttrChars (l : List Char) : List Char := (l.map escapeAttrChar).flatten

/-- Default tag allow-list of bleach.clean (bleach.ALLOWED_TAGS), used for
the report description (email.py line 76 calls bleach.clean with no tags
argument). -/
def ALLOWED_TAGS : List String :=
  ["a", "abbr", "acronym", "b", "blockquote", "code", "em", "i", "li", "ol",
   "strong", "ul"]

/-- Tag allow-list for the embedded data, email.py line 35. -/
def TABLE_TAGS : List String :=
  ["table", "th", "tr", "td", "thead", "tbody", "tfoot"]

/-- Default attribute allow-list of bleach.clean (bleach.ALLOWED_ATTRIBUTES);
both bleach.clean call sites in email.py leave it at its default. -/
def allowedAttributes (tag : String) : List String :=
  if tag = "a" then ["href", "title"]
  else if tag = "abbr" then ["title"]
  else if tag = "acronym" then ["title"]
  else []

/-- Serialization of one kept attribute: space, lowercased name, equals,
double-quoted escaped value. -/
def serializeAttr (a : HtmlAttr) : List Char :=
  ' ' :: (lowerChars a.name.data ++ '=' :: '"' :: (escapeAttrChars a.value.data ++ ['"']))

/-- Serialization of a list of kept attributes. -/
def serializeAttrs (attrs : List HtmlAttr) : List Char :=
  (attrs.map serializeAttr).flatten

/-- Attributes surviving sanitization on an allowed tag: those whose
lowercased name is on the attribute allow-list for that tag. -/
def keepAttrs (tag : String) (attrs : List HtmlAttr) : List HtmlAttr :=
  attrs.filter (fun a => decide (lowerStr a.name ∈ allowedAttributes tag))

/-- Raw re-serialization of one attribute of a disallowed tag, used to build
the text that bleach escapes. -/
def rawAttr (a : HtmlAttr) : List Char :=
  ' ' :: (a.name.data ++ '=' :: '"' :: (a.value.data ++ ['"']))

/-- Raw re-serialization of a disallowed start tag. -/
def rawStartTag (n : String) (attrs : List HtmlAttr) : List Char :=
  '<' :: (n.data ++ (attrs.map rawAttr).flatten ++ ['>'])

/-- Raw re-serialization of a disallowed end tag. -/
def rawEndTag (n : String) : List Char :=
  '<' :: '/' :: (n.data ++ ['>'])

/-- Sanitization of one token, following bleach.clean with strip=False
(the default used by email.py): an allowed tag is re-serialized with only
allow-listed attributes, a disallowed tag is escaped wholesale into inert
text, character data is escaped. -/
def renderToken (tags : List String) : HtmlToken → List Char
  | .text s => escapeChars s.data
  | .startTag n attrs =>
      let ln := lowerStr n
      if ln ∈ tags then
        '<' :: (ln.data ++ serializeAttrs (keepAttrs ln attrs) ++ ['>'])
      else escapeChars (rawStartTag n attrs)
  | .endTag n =>
      let ln := lowerStr n
      if ln ∈ tags then '<' :: '/' :: (ln.data ++ ['>'])
      else escapeChars (rawEndTag n)

/-- Characters of the sanitized output for a token stream. -/
def cleanChars (tags : List String) (ts : List HtmlToken) : List Char :=
  (ts.map (renderToken tags)).flatten

/-- Model of bleach.clean restricted to the way email.py calls it: the
default attribute allow-list, strip=False (disallowed tags escaped), and the
given tag allow-list. -/
def bleachClean (tags : List String) (ts : List HtmlToken) : String :=
  ⟨cleanChars tags ts⟩

/-- Modelled from the spec: ReportContent (section 3), the NotificationContent
dataclass of superset/reports/notifications/base.py, which is not under src;
field names follow the attribute names used by email.py (text is the error
text, embedded_data the embedded HTML).  Optional string and bytes fields,
read-only to the renderer.  HTML-bearing fields are carried in tokenized
form, bytes as lists of byte values. -/
structure NotificationContent where
  name : String
  text : Option String
  description : Option (List HtmlToken)
  url : Option String
  embedded_data : Option (List HtmlToken)
  screenshot : Option (List Nat)
  csv : Option (List Nat)
deriving DecidableEq

/-- EmailContent dataclass of email.py lines 38-42: body, optional data
attachments keyed by filename, optional inline images keyed by content id.
The two optional fields default to None. -/
structure EmailContent where
  body : String
  data : Option (List (String × List Nat)) := none
  images : Option (List (String × List Nat)) := none
deriving DecidableEq

/-- Python truthiness of an optional string: None and the empty string are
falsy. -/
def truthyOptStr : Option String → Bool
  | none => false
  | some s => decide (s ≠ "")

/-- Python truthiness of an optional bytes value: None and empty bytes are
falsy. -/
def truthyOptBytes : Option (List Nat) → Bool
  | none => false
  | some b => decide (b ≠ [])

/-- Python `x or ""` on an optional HTML field, at the token level: a falsy
value is replaced by the empty fragment. -/
def orEmptyToks : Option (List HtmlToken) → List HtmlToken
  | none => []
  | some l => l

/-- Python %-formatting of a possibly-None value: None formats as the
literal string None. -/
def pyStrOfOptStr : Option String → String
  | none => "None"
  | some s => s

/-- Error template of email.py lines 56-63 (_error_template): the
triple-quoted gettext template with the text interpolated, unescaped. -/
def errorTemplate (text : String) : String :=
  "\n            Error: " ++ text ++ "\n            "

/-- Sanitized description, email.py line 76: bleach.clean with default
arguments on `description or ""`. -/
def sanitizedDescription (c : NotificationContent) : String :=
  bleachClean ALLOWED_TAGS (orEmptyToks c.description)

/-- Sanitized embedded data, email.py line 79: bleach.clean with
tags=TABLE_TAGS on `embedded_data or ""`. -/
def sanitizedEmbedded (c : NotificationContent) : String :=
  bleachClean TABLE_TAGS (orEmptyToks c.embedded_data)

/-- Inline image tag of email.py line 91, with the message id interpolated
into the cid reference. -/
def imgTag (msgid : String) : String :=
  "<img width=\"1000px\" src=\"cid:" ++ msgid ++ "\">"

/-- Body assembly of email.py lines 81-94: the triple-quoted gettext
template with description, url, embedded data and image tag interpolated by
%-formatting (no escaping of any of them; url may be None and then formats
as the literal None). -/
def assembledBody (c : NotificationContent) (msgid : String) : String :=
  "\n            <p>" ++ sanitizedDescription c ++
    "</p>\n            <b><a href=\"" ++ pyStrOfOptStr c.url ++
    "\">Explore in Superset</a></b><p></p>\n            " ++
    sanitizedEmbedded c ++ "\n            " ++
    (if truthyOptBytes c.screenshot then imgTag msgid else "") ++
    "\n            "

/-- EmailNotification._get_content, email.py lines 65-99.  The message id
(make_msgid(domain)[1:-1], a fresh unique token generated from the SMTP
domain) is passed in as a parameter since its generation is external
randomness. -/
def getContent (c : NotificationContent) (msgid : String) : EmailContent :=
  if truthyOptStr c.text then
    EmailContent.mk (errorTemplate (c.text.getD "")) none none
  else
    EmailContent.mk (assembledBody c msgid)
      (if truthyOptBytes c.csv then some [(c.name ++ ".csv", c.csv.getD [])] else none)
      (if truthyOptBytes c.screenshot then some [(msgid, c.screenshot.getD [])] else none)

/-- EmailNotification._get_subject, email.py lines 101-106: the configured
prefix and the report name joined by a space. -/
def getSubject (pref : String) (c : NotificationContent) : String :=
  pref ++ " " ++ c.name

/-- Model of a Python JSON value as produced by json.loads (floats are not
needed by this subsystem and are left out; numbers are integers). -/
inductive PyJson where
  | null
  | bool (b : Bool)
  | num (n : Int)
  | str (s : String)
  | arr (elems : List PyJson)
  | obj (fields : List (String × PyJson))

/-- Python exceptions reachable in this subsystem: json.JSONDecodeError,
KeyError, TypeError from the standard library, and NotificationError from
superset/reports/notifications/exceptions.py, which wraps a cause.  The
specification also names a MalformedRecipientError; no such class exists in
the codebase, so it has no constructor here. -/
inductive PyExc where
  | jsonDecodeError (msg : String)
  | keyError (key : String)
  | typeError (msg : String)
  | notificationError (cause : PyExc)

/-- JSON whitespace. -/
def isWs (c : Char) : Bool :=
  c = ' ' || c = '\n' || c = '\t' || c = '\r'

/-- Skip JSON whitespace. -/
def skipWs : List Char → List Char
  | [] => []
  | c :: r => if isWs c then skipWs r else c :: r

/-- Parse the body of a JSON string after the opening double quote,
returning the decoded characters and the remaining input.  Escapes are the
common ones; the uXXXX form is not needed by this subsystem and is
rejected. -/
def parseStringBody : List Char → Except String (List Char × List Char)
  | [] => .error "Unterminated string"
  | '"' :: r => .ok ([], r)
  | '\\' :: r =>
      match r with
      | [] => .error "Unterminated string"
      | e :: r2 =>
          let esc : Except String Char :=
            if e = '"' then .ok '"'
            else if e = '\\' then .ok '\\'
            else if e = '/' then .ok '/'
            else if e = 'n' then .ok '\n'
            else if e = 't' then .ok '\t'
            else if e = 'r' then .ok '\r'
            else .error "Invalid escape"
          match esc with
          | .error m => .error m
          | .ok c =>
              match parseStringBody r2 with
              | .ok (cs, rest) => .ok (c :: cs, rest)
              | .error m => .error m
  | c :: r =>
      match parseStringBody r with
      | .ok (cs, rest) => .ok (c :: cs, rest)
      | .error m => .error m

/-- Numeric value of a digit character. -/
def digitVal (c : Char) : Nat := c.toNat - 48

/-- Maximal run of digits, accumulating a value. -/
def parseDigitsAux : List Char → Nat → Nat × List Char
  | [], acc => (acc, [])
  | c :: r, acc =>
      if c.isDigit then parseDigitsAux r (acc * 10 + digitVal c) else (acc, c :: r)

/-- Parse a JSON integer literal. -/
def parseNumber : List Char → Except String (Int × List Char)
  | '-' :: c :: r =>
      if c.isDigit then
        let p := parseDigitsAux r (digitVal c)
        .ok (-(Int.ofNat p.1), p.2)
      else .error "Expecting value"
  | c :: r =>
      if c.isDigit then
        let p := parseDigitsAux r (digitVal c)
        .ok (Int.ofNat p.1, p.2)
      else .error "Expecting value"
  | [] => .error "Expecting value"

mutual

/-- Fuel-bounded recursive-descent parser for a JSON value, modelling
json.loads; the fuel given by jsonLoads always suffices for the inputs this
subsystem meets, and exhaustion is itself a parse error. -/
def parseVal : Nat → List Char → Except String (PyJson × List Char)
  | 0, _ => .error "Nesting limit exceeded"
  | f + 1, l =>
      match skipWs l with
      | [] => .error "Expecting value"
      | '"' :: r =>
          match parseStringBody r with
          | .ok (cs, rest) => .ok (.str ⟨cs⟩, rest)
          | .error m => .error m
      | '\x7b' :: r =>
          match skipWs r with
          | '\x7d' :: rest => .ok (.obj [], rest)
          | r2 =>
              match parseObjItems f r2 [] with
              | .ok (fields, rest) => .ok (.obj fields, rest)
              | .error m => .error m
      | '[' :: r =>
          match skipWs r with
          | ']' :: rest => .ok (.arr [], rest)
          | r2 =>
              match parseArrItems f r2 [] with
              | .ok (elems, rest) => .ok (.arr elems, rest)
              | .error m => .error m
      | 't' :: 'r' :: 'u' :: 'e' :: r => .ok (.bool true, r)
      | 'f' :: 'a' :: 'l' :: 's' :: 'e' :: r => .ok (.bool false, r)
      | 'n' :: 'u' :: 'l' :: 'l' :: r => .ok (.null, r)
      | s =>
          match parseNumber s with
          | .ok (n, rest) => .ok (.num n, rest)
          | .error m => .error m

/-- Members of a JSON object, first member expected at the head of the
(whitespace-skipped) input. -/
def parseObjItems :
    Nat → List Char → List (String × PyJson) →
      Except String (List (String × PyJson) × List Char)
  | 0, _, _ => .error "Nesting limit exceeded"
  | f + 1, l, acc =>
      match l with
      | '"' :: r =>
          match parseStringBody r with
          | .error m => .error m
          | .ok (key, r2) =>
              match skipWs r2 with
              | ':' :: r3 =>
                  match parseVal f r3 with
                  | .error m => .error m
                  | .ok (v, r4) =>
                      match skipWs r4 with
                      | ',' :: r5 => parseObjItems f (skipWs r5) (acc ++ [(⟨key⟩, v)])
                      | '\x7d' :: r5 => .ok (acc ++ [(⟨key⟩, v)], r5)
                      | _ => .error "Expecting delimiter"
              | _ => .error "Expecting colon delimiter"
      | _ => .error "Expecting property name enclosed in double quotes"

/-- Elements of a JSON array, first element expected at the head of the
(whitespace-skipped) input. -/
def parseArrItems :
    Nat → List Char → List PyJson → Except String (List PyJson × List Char)
  | 0, _, _ => .error "Nesting limit exceeded"
  | f + 1, l, acc =>
      match parseVal f l with
      | .error m => .error m
      | .ok (v, r) =>
          match skipWs r with
          | ',' :: r2 => parseArrItems f (skipWs r2) (acc ++ [v])
          | ']' :: r2 => .ok (acc ++ [v], r2)
          | _ => .error "Expecting delimiter"

end

/-- Model of json.loads on a whole document: parse one value, then require
only whitespace to remain. -/
def jsonLoads (s : String) : Except String PyJson :=
  match parseVal (s.data.length + 8) s.data with
  | .error m => .error m
  | .ok (v, rest) => if (skipWs rest).isEmpty then .ok v else .error "Extra data"

/-- Python dict lookup for an object built by json.loads: with duplicate
keys the last occurrence wins. -/
def pyDictGet (fields : List (String × PyJson)) (key : String) : Option PyJson :=
  match fields.reverse.find? (fun p => p.1 == key) with
  | some p => some p.2
  | none => none

/-- EmailNotification._get_to, email.py lines 108-109:
json.loads(recipient_config_json)["target"].  An unparsable blob raises
json.JSONDecodeError, an object without the key raises KeyError, and
subscripting a non-dict value with a string raises TypeError; none of these
is caught here. -/
def getTo (recipientConfigJson : String) : Except PyExc PyJson :=
  match jsonLoads recipientConfigJson with
  | .error m => .error (.jsonDecodeError m)
  | .ok (.obj fields) =>
      match pyDictGet fields "target" with
      | some v => .ok v
      | none => .error (.keyError "target")
  | .ok (.arr _) => .error (.typeError "list indices must be integers or slices, not str")
  | .ok _ => .error (.typeError "value is not subscriptable")

/-- Modelled from the spec: one invocation of the transport boundary
send_email_smtp (superset/utils/core.py, not under src; the spec treats it
as the external TransportClient), recording every argument email.py passes
at lines 116-127.  files is the generic attachment list, data the CSV
attachments, images the inline images. -/
structure SmtpCall where
  toAddr : PyJson
  subject : String
  body : String
  files : List String
  data : Option (List (String × List Nat))
  images : Option (List (String × List Nat))
  bcc : String
  mime_subtype : String
  dryrun : Bool

/-- The transport call record assembled by send, email.py lines 116-127:
recipient, subject, body, empty files list, csv data, inline images, empty
bcc, mime_subtype "related", dryrun False. -/
def mkCall (pref : String) (c : NotificationContent) (msgid : String)
    (target : PyJson) : SmtpCall :=
  SmtpCall.mk target (getSubject pref c) (getContent c msgid).body []
    (getContent c msgid).data (getContent c msgid).images "" "related" false

/-- EmailNotification.send, email.py lines 111-130.  The transport client is
an oracle mapping the call record to success or an exception; the result
pairs the Python outcome of send with the list of transport calls made, so
that call counts and arguments are observable.  Subject, content and
recipient are computed before the try block, so a recipient-resolution
exception propagates unwrapped and reaches no transport call; an exception
from the transport call is wrapped in NotificationError. -/
def send (pref : String) (c : NotificationContent) (msgid : String)
    (recipientConfigJson : String)
    (transport : SmtpCall → Except PyExc Unit) :
    Except PyExc Unit × List SmtpCall :=
  match getTo recipientConfigJson with
  | .error e => (.error e, [])
  | .ok target =>
      match transport (mkCall pref c msgid target) with
      | .ok _ => (.ok (), [mkCall pref c msgid target])
      | .error ex => (.error (.notificationError ex), [mkCall pref c msgid target])

/-! Section: Substring occurrence -/

/-- Contiguous occurrence of the character sequence p inside l. -/
def containsSeq (p l : List Char) : Prop :=
  ∃ u v, l = u ++ p ++ v

/-- Boolean test that p is an initial segment of l. -/
def leadSeq : List Char → List Char → Bool
  | [], _ => true
  | _ :: _, [] => false
  | a :: p, b :: l => a == b && leadSeq p l

/-- Boolean test of contiguous occurrence, used to evaluate concrete
counterexamples. -/
def isSub : List Char → List Char → Bool
  | p, [] => p.isEmpty
  | p, c :: r => leadSeq p (c :: r) || isSub p r

theorem containsSeq_self (p : List Char) : containsSeq p p :=
  ⟨[], [], by simp⟩

theorem containsSeq_appL (x : List Char) {p l : List Char} (h : containsSeq p l) :
    containsSeq p (x ++ l) := by
  obtain ⟨u, v, rfl⟩ := h
  exact ⟨x ++ u, v, by simp⟩

theorem containsSeq_appR (x : List Char) {p l : List Char} (h : containsSeq p l) :
    containsSeq p (l ++ x) := by
  obtain ⟨u, v, rfl⟩ := h
  exact ⟨u, v ++ x, by simp⟩

/-- String concatenation concatenates the underlying character lists. -/
theorem strData_append (a b : String) : (a ++ b).data = a.data ++ b.data := by
  cases a; cases b; rfl

/-! Section: A scanner recognizing which tag names occur as markup

scanTags A l holds when every markup occurrence in l (a less-than sign
followed by an optional slash and a maximal letter run) opens a tag whose
name is in A; the bridge lemma tagOccurs_mem below converts it into the
absence of any tag occurrence outside A. -/

/-- Letters allowed in the tag names this development meets. -/
def isTagLetter (c : Char) : Bool := c.isAlpha

/-- Occurrence of the tag named t as markup inside s: an opening t followed
by a non-letter delimiter (so td does not count as an occurrence of t), or
the corresponding end tag. -/
def TagOccurs (t s : List Char) : Prop :=
  ∃ u d v, isTagLetter d = false ∧
    (s = u ++ '<' :: (t ++ d :: v) ∨ s = u ++ '<' :: '/' :: (t ++ d :: v))

/-- Scanner state: outside markup, just after a less-than sign, or inside
the letter run of a tag name (with the letters read so far). -/
inductive ScanSt where
  | top
  | afterLt
  | run (acc : List Char)
deriving DecidableEq

/-- One scanner transition; none means the scan rejects. -/
def scanStep (A : List (List Char)) : ScanSt → Char → Option ScanSt
  | .top, c => some (if c = '<' then .afterLt else .top)
  | .afterLt, c =>
      if c = '/' then some (.run [])
      else if isTagLetter c then some (.run [c])
      else none
  | .run acc, c =>
      if isTagLetter c then some (.run (acc ++ [c]))
      else if acc ∈ A then some (if c = '<' then .afterLt else .top)
      else none

/-- Run of the scanner from a state; a run or pending tag open at end of
input rejects, as do transitions to none. -/
def scanAux (A : List (List Char)) : ScanSt → List Char → Bool
  | .top, [] => true
  | .afterLt, [] => false
  | .run _, [] => false
  | st, c :: r =>
      match scanStep A st c with
      | some st2 => scanAux A st2 r
      | none => false

/-- Scan of a whole output. -/
def scanTags (A : List (List Char)) (l : List Char) : Bool :=
  scanAux A .top l

theorem scanAux_cons (A : List (List Char)) (st : ScanSt) (c : Char) (r : List Char) :
    scanAux A st (c :: r) =
      match scanStep A st c with
      | some st2 => scanAux A st2 r
      | none => false := by
  cases st <;> rfl

/-- Run of the scanner over a chunk alone, returning the final state. -/
def scanChunk (A : List (List Char)) : ScanSt → List Char → Option ScanSt
  | st, [] => some st
  | st, c :: r =>
      match scanStep A st c with
      | some st2 => scanChunk A st2 r
      | none => none

theorem scanChunk_append (A : List (List Char)) {st st2 : ScanSt}
    {chunk : List Char} (h : scanChunk A st chunk = some st2) (rest : List Char) :
    scanAux A st (chunk ++ rest) = scanAux A st2 rest := by
  induction chunk generalizing st with
  | nil => simp [scanChunk] at h; subst h; rfl
  | cons c cs ih =>
      rw [List.cons_append, scanAux_cons]
      rw [scanChunk] at h
      cases hs : scanStep A st c with
      | none => rw [hs] at h; exact absurd h (by simp)
      | some st3 => rw [hs] at h; simpa using ih h

/-- Scanning a chunk without a less-than sign from the outside state passes
through it. -/
theorem scanAux_top_noLt (A : List (List Char)) {l : List Char}
    (h : '<' ∉ l) (rest : List Char) :
    scanAux A .top (l ++ rest) = scanAux A .top rest := by
  induction l with
  | nil => rfl
  | cons c cs ih =>
      have hc : c ≠ '<' := fun hc => h (hc ▸ List.mem_cons_self c cs)
      rw [List.cons_append, scanAux_cons]
      simp only [scanStep, if_neg hc]
      exact ih (fun hm => h (List.mem_cons_of_mem c hm))

/-- Consuming a letter run extends the accumulator. -/
theorem scanAux_run_letters (A : List (List Char)) {m : List Char}
    (hm : ∀ c ∈ m, isTagLetter c = true) (acc tail : List Char) :
    scanAux A (.run acc) (m ++ tail) = scanAux A (.run (acc ++ m)) tail := by
  induction m generalizing acc with
  | nil => simp
  | cons c cs ih =>
      have hc : isTagLetter c = true := hm c (List.mem_cons_self c cs)
      rw [List.cons_append, scanAux_cons]
      simp only [scanStep, if_pos hc]
      rw [ih (fun x hx => hm x (List.mem_cons_of_mem c hx)) (acc ++ [c])]
      simp

/-- A successful scan that reaches a less-than sign continues successfully
from the afterLt state. -/
theorem scanAux_reach (A : List (List Char)) :
    ∀ (u : List Char) (st : ScanSt) (w : List Char),
      scanAux A st (u ++ '<' :: w) = true → scanAux A .afterLt w = true := by
  intro u
  induction u with
  | nil =>
      intro st w h
      rw [List.nil_append, scanAux_cons] at h
      cases st with
      | top => simpa [scanStep] using h
      | afterLt =>
          have h1 : scanStep A .afterLt '<' = none := by
            simp [scanStep, isTagLetter]
          rw [h1] at h
          exact absurd h (by simp)
      | run acc =>
          by_cases hA : acc ∈ A
          · have h1 : scanStep A (.run acc) '<' = some .afterLt := by
              simp [scanStep, isTagLetter, hA]
            rw [h1] at h
            simpa using h
          · have h1 : scanStep A (.run acc) '<' = none := by
              simp [scanStep, isTagLetter, hA]
            rw [h1] at h
            exact absurd h (by simp)
  | cons c cs ih =>
      intro st w h
      rw [List.cons_append, scanAux_cons] at h
      cases hs : scanStep A st c with
      | none => rw [hs] at h; exact absurd h (by simp)
      | some st2 => rw [hs] at h; exact ih st2 w h

/-- From the afterLt state, a successful scan over a letter run followed by
a non-letter delimiter forces the run to be an allowed name. -/
theorem scanAux_afterLt_name (A : List (List Char)) {t : List Char} (d : Char)
    (v : List Char) (ht0 : t ≠ []) (ht1 : ∀ c ∈ t, isTagLetter c = true)
    (hd : isTagLetter d = false) :
    scanAux A .afterLt (t ++ d :: v) = true → t ∈ A := by
  intro h
  cases t with
  | nil => exact absurd rfl ht0
  | cons c cs =>
      have hc : isTagLetter c = true := ht1 c (List.mem_cons_self c cs)
      have hslash : c ≠ '/' := by
        intro e; rw [e] at hc; exact absurd hc (by decide)
      rw [List.cons_append, scanAux_cons] at h
      have h1 : scanStep A .afterLt c = some (.run [c]) := by
        simp [scanStep, hslash, hc]
      rw [h1] at h
      simp only at h
      rw [scanAux_run_letters A (fun x hx => ht1 x (List.mem_cons_of_mem c hx)) [c] (d :: v)] at h
      rw [scanAux_cons] at h
      simp only [List.singleton_append] at h
      by_cases hA : c :: cs ∈ A
      · exact hA
      · have h2 : scanStep A (.run (c :: cs)) d = none := by
          simp [scanStep, hd, hA]
        rw [h2] at h
        exact absurd h (by simp)

/-- End-tag variant of the preceding lemma. -/
theorem scanAux_afterLt_endName (A : List (List Char)) {t : List Char} (d : Char)
    (v : List Char) (ht1 : ∀ c ∈ t, isTagLetter c = true)
    (hd : isTagLetter d = false) :
    scanAux A .afterLt ('/' :: (t ++ d :: v)) = true → t ∈ A := by
  intro h
  rw [scanAux_cons] at h
  have h1 : scanStep A .afterLt '/' = some (.run []) := by
    simp [scanStep]
  rw [h1] at h
  simp only at h
  rw [scanAux_run_letters A ht1 [] (d :: v)] at h
  rw [scanAux_cons] at h
  simp only [List.nil_append] at h
  by_cases hA : t ∈ A
  · exact hA
  · have h2 : scanStep A (.run t) d = none := by
      simp [scanStep, hd, hA]
    rw [h2] at h
    exact absurd h (by simp)

/-- Bridge: in output accepted by the scanner, every tag occurrence is an
allowed name. -/
theorem tagOccurs_mem {A : List (List Char)} {t s : List Char}
    (hs : scanTags A s = true) (ht0 : t ≠ [])
    (ht1 : ∀ c ∈ t, isTagLetter c = true) :
    TagOccurs t s → t ∈ A := by
  rintro ⟨u, d, v, hd, hcase | hcase⟩
  · subst hcase
    exact scanAux_afterLt_name A d v ht0 ht1 hd (scanAux_reach A u .top _ hs)
  · subst hcase
    exact scanAux_afterLt_endName A d v ht1 hd (scanAux_reach A u .top _ hs)

/-- Absence form of the bridge: a well-formed tag name outside the allow
list never occurs as markup in accepted output. -/
theorem not_tagOccurs {A : List (List Char)} {t s : List Char}
    (hs : scanTags A s = true) (ht0 : t ≠ [])
    (ht1 : ∀ c ∈ t, isTagLetter c = true) (hnot : t ∉ A) :
    ¬ TagOccurs t s :=
  fun hocc => hnot (tagOccurs_mem hs ht0 ht1 hocc)

/-! Section: The sanitizer output is accepted by the scanner -/

theorem escapeChar_noLt (c : Char) : '<' ∉ escapeChar c := by
  intro h
  unfold escapeChar at h
  split_ifs at h with h1 h2 h3
  · exact absurd h (by decide)
  · exact absurd h (by decide)
  · exact absurd h (by decide)
  · rw [List.mem_singleton] at h
    exact h2 h.symm

theorem escapeChars_noLt (l : List Char) : '<' ∉ escapeChars l := by
  intro h
  rw [escapeChars, List.mem_flatten] at h
  obtain ⟨x, hx, hmem⟩ := h
  rw [List.mem_map] at hx
  obtain ⟨c, _, rfl⟩ := hx
  exact escapeChar_noLt c hmem

theorem escapeAttrChar_noLt (c : Char) : '<' ∉ escapeAttrChar c := by
  intro h
  unfold escapeAttrChar at h
  split_ifs at h with h1 h2 h3 h4
  · exact absurd h (by decide)
  · exact absurd h (by decide)
  · exact absurd h (by decide)
  · exact absurd h (by decide)
  · rw [List.mem_singleton] at h
    exact h2 h.symm

theorem escapeAttrChars_noLt (l : List Char) : '<' ∉ escapeAttrChars l := by
  intro h
  rw [escapeAttrChars, List.mem_flatten] at h
  obtain ⟨x, hx, hmem⟩ := h
  rw [List.mem_map] at hx
  obtain ⟨c, _, rfl⟩ := hx
  exact escapeAttrChar_noLt c hmem

theorem allowedAttributes_cases (tag s : String) (h : s ∈ allowedAttributes tag) :
    s = "href" ∨ s = "title" := by
  unfold allowedAttributes at h
  split_ifs at h <;> simp_all

/-- Attributes surviving on an allowed tag serialize without a less-than
sign: names are from the attribute allow-list and values are escaped. -/
theorem serializeAttrs_keep_noLt (tag : String) (attrs : List HtmlAttr) :
    '<' ∉ serializeAttrs (keepAttrs tag attrs) := by
  intro h
  rw [serializeAttrs, List.mem_flatten] at h
  obtain ⟨x, hx, hmem⟩ := h
  rw [List.mem_map] at hx
  obtain ⟨a, ha, rfl⟩ := hx
  rw [keepAttrs, List.mem_filter] at ha
  have hname : lowerStr a.name ∈ allowedAttributes tag := by
    have := ha.2; simpa using this
  have hdata : lowerChars a.name.data = (lowerStr a.name).data := rfl
  rw [serializeAttr] at hmem
  rcases List.mem_cons.mp hmem with h1 | h1
  · exact absurd h1 (by decide)
  rcases List.mem_append.mp h1 with h2 | h2
  · rw [hdata] at h2
    rcases allowedAttributes_cases tag (lowerStr a.name) hname with he | he <;>
      rw [he] at h2 <;> revert h2 <;> decide
  rcases List.mem_cons.mp h2 with h3 | h3
  · exact absurd h3 (by decide)
  rcases List.mem_cons.mp h3 with h4 | h4
  · exact absurd h4 (by decide)
  rcases List.mem_append.mp h4 with h5 | h5
  · exact escapeAttrChars_noLt _ h5
  · exact absurd h5 (by decide)

/-- The attribute serialization is empty or begins with a space. -/
theorem serializeAttrs_shape (attrs : List HtmlAttr) :
    serializeAttrs attrs = [] ∨ ∃ r, serializeAttrs attrs = ' ' :: r := by
  cases attrs with
  | nil => exact Or.inl rfl
  | cons a l =>
      right
      refine ⟨(lowerChars a.name.data ++ '=' :: '"' :: (escapeAttrChars a.value.data ++ ['"'])) ++
        serializeAttrs l, ?_⟩
      rfl

/-- Scanning an allowed start-tag serialization from the outside state
passes through it. -/
theorem scanAux_top_startSerial (A : List (List Char)) {name : List Char}
    (hmem : name ∈ A) (hne : name ≠ [])
    (hl : ∀ c ∈ name, isTagLetter c = true) {attrsSer : List Char}
    (hshape : attrsSer = [] ∨ ∃ r, attrsSer = ' ' :: r)
    (hnoLt : '<' ∉ attrsSer) (rest : List Char) :
    scanAux A .top ('<' :: (name ++ (attrsSer ++ '>' :: rest))) =
      scanAux A .top rest := by
  rw [scanAux_cons]
  have hstep : scanStep A .top '<' = some .afterLt := by simp [scanStep]
  rw [hstep]
  simp only
  cases name with
  | nil => exact absurd rfl hne
  | cons c cs =>
      have hc : isTagLetter c = true := hl c (List.mem_cons_self c cs)
      have hslash : c ≠ '/' := by
        intro e; rw [e] at hc; exact absurd hc (by decide)
      rw [List.cons_append, scanAux_cons]
      have hstep2 : scanStep A .afterLt c = some (.run [c]) := by
        simp [scanStep, hslash, hc]
      rw [hstep2]
      simp only
      rw [scanAux_run_letters A (fun x hx => hl x (List.mem_cons_of_mem c hx)) [c]
        (attrsSer ++ '>' :: rest)]
      simp only [List.singleton_append]
      rcases hshape with rfl | ⟨r, rfl⟩
      · rw [List.nil_append, scanAux_cons]
        have hstep3 : scanStep A (.run (c :: cs)) '>' = some .top := by
          simp [scanStep, isTagLetter, hmem]
        rw [hstep3]
      · rw [List.cons_append, scanAux_cons]
        have hstep3 : scanStep A (.run (c :: cs)) ' ' = some .top := by
          simp [scanStep, isTagLetter, hmem]
        rw [hstep3]
        simp only
        have hr : '<' ∉ r := fun hm => hnoLt (List.mem_cons_of_mem ' ' hm)
        rw [scanAux_top_noLt A hr ('>' :: rest), scanAux_cons]
        have hstep4 : scanStep A .top '>' = some .top := by simp [scanStep]
        rw [hstep4]

/-- Scanning an allowed end-tag serialization from the outside state passes
through it. -/
theorem scanAux_top_endSerial (A : List (List Char)) {name : List Char}
    (hmem : name ∈ A) (hl : ∀ c ∈ name, isTagLetter c = true)
    (rest : List Char) :
    scanAux A .top ('<' :: '/' :: (name ++ '>' :: rest)) = scanAux A .top rest := by
  rw [scanAux_cons]
  have hstep : scanStep A .top '<' = some .afterLt := by simp [scanStep]
  rw [hstep]
  simp only
  rw [scanAux_cons]
  have hstep2 : scanStep A .afterLt '/' = some (.run []) := by simp [scanStep]
  rw [hstep2]
  simp only
  rw [scanAux_run_letters A hl [] ('>' :: rest)]
  simp only [List.nil_append]
  rw [scanAux_cons]
  have hstep3 : scanStep A (.run name) '>' = some .top := by
    simp [scanStep, isTagLetter, hmem]
  rw [hstep3]

/-- Scanning the sanitization of one token from the outside state passes
through it, provided every allowed tag name is a nonempty letter word whose
characters the scanner accepts and is in the scanner allow-list. -/
theorem scanAux_top_render (A : List (List Char)) {tags : List String}
    (htags : ∀ n ∈ tags, n.data ≠ [] ∧ ∀ c ∈ n.data, isTagLetter c = true)
    (hsub : ∀ n ∈ tags, n.data ∈ A) (tok : HtmlToken) (rest : List Char) :
    scanAux A .top (renderToken tags tok ++ rest) = scanAux A .top rest := by
  cases tok with
  | text s => exact scanAux_top_noLt A (escapeChars_noLt _) rest
  | startTag n attrs =>
      show scanAux A .top
        ((if lowerStr n ∈ tags then
            '<' :: ((lowerStr n).data ++ serializeAttrs (keepAttrs (lowerStr n) attrs) ++ ['>'])
          else escapeChars (rawStartTag n attrs)) ++ rest) = scanAux A .top rest
      by_cases hmem : lowerStr n ∈ tags
      · rw [if_pos hmem]
        have hshape :
            ('<' :: ((lowerStr n).data ++ serializeAttrs (keepAttrs (lowerStr n) attrs) ++ ['>'])) ++
              rest =
            '<' :: ((lowerStr n).data ++
              (serializeAttrs (keepAttrs (lowerStr n) attrs) ++ '>' :: rest)) := by
          simp
        rw [hshape]
        exact scanAux_top_startSerial A (hsub _ hmem) (htags _ hmem).1 (htags _ hmem).2
          (serializeAttrs_shape _) (serializeAttrs_keep_noLt _ _) rest
      · rw [if_neg hmem]
        exact scanAux_top_noLt A (escapeChars_noLt _) rest
  | endTag n =>
      show scanAux A .top
        ((if lowerStr n ∈ tags then '<' :: '/' :: ((lowerStr n).data ++ ['>'])
          else escapeChars (rawEndTag n)) ++ rest) = scanAux A .top rest
      by_cases hmem : lowerStr n ∈ tags
      · rw [if_pos hmem]
        have hshape :
            ('<' :: '/' :: ((lowerStr n).data ++ ['>'])) ++ rest =
              '<' :: '/' :: ((lowerStr n).data ++ '>' :: rest) := by
          simp
        rw [hshape]
        exact scanAux_top_endSerial A (hsub _ hmem) (htags _ hmem).2 rest
      · rw [if_neg hmem]
        exact scanAux_top_noLt A (escapeChars_noLt _) rest

/-- Scanning a whole sanitized token stream from the outside state passes
through it. -/
theorem scanAux_top_clean (A : List (List Char)) {tags : List String}
    (htags : ∀ n ∈ tags, n.data ≠ [] ∧ ∀ c ∈ n.data, isTagLetter c = true)
    (hsub : ∀ n ∈ tags, n.data ∈ A) (ts : List HtmlToken) (rest : List Char) :
    scanAux A .top (cleanChars tags ts ++ rest) = scanAux A .top rest := by
  induction ts with
  | nil => rfl
  | cons tok ts ih =>
      have hdef : cleanChars tags (tok :: ts) = renderToken tags tok ++ cleanChars tags ts := rfl
      rw [hdef, List.append_assoc, scanAux_top_render A htags hsub tok]
      exact ih

/-- The sanitizer output is accepted by the scanner for its own tag list. -/
theorem scanTags_clean (A : List (List Char)) {tags : List String}
    (htags : ∀ n ∈ tags, n.data ≠ [] ∧ ∀ c ∈ n.data, isTagLetter c = true)
    (hsub : ∀ n ∈ tags, n.data ∈ A) (ts : List HtmlToken) :
    scanTags A (cleanChars tags ts) = true := by
  have h := scanAux_top_clean A htags hsub ts []
  rw [List.append_nil] at h
  exact h

/-! Section: Decomposition of sanitizer output around one token -/

theorem cleanChars_split (tags : List String) (s t : List HtmlToken) (tok : HtmlToken) :
    cleanChars tags (s ++ tok :: t) =
      cleanChars tags s ++ (renderToken tags tok ++ cleanChars tags t) := by
  simp [cleanChars]

/-- The sanitization of a member token occurs contiguously in the output. -/
theorem containsSeq_render {tags : List String} {ts : List HtmlToken} {tok : HtmlToken}
    (h : tok ∈ ts) : containsSeq (renderToken tags tok) (cleanChars tags ts) := by
  obtain ⟨s, t, rfl⟩ := List.append_of_mem h
  rw [cleanChars_split]
  exact containsSeq_appL _ (containsSeq_appR _ (containsSeq_self _))

/-! Section: Facts about the concrete tag lists -/

theorem table_lower {n : String} (hn : n ∈ TABLE_TAGS) : lowerStr n = n := by
  simp only [TABLE_TAGS, List.mem_cons, List.not_mem_nil, or_false] at hn
  rcases hn with rfl | rfl | rfl | rfl | rfl | rfl | rfl <;> rfl

theorem table_allowedAttributes {n : String} (hn : n ∈ TABLE_TAGS) :
    allowedAttributes n = [] := by
  simp only [TABLE_TAGS, List.mem_cons, List.not_mem_nil, or_false] at hn
  rcases hn with rfl | rfl | rfl | rfl | rfl | rfl | rfl <;> rfl

theorem keepAttrs_table {n : String} (hn : n ∈ TABLE_TAGS) (attrs : List HtmlAttr) :
    keepAttrs n attrs = [] := by
  simp [keepAttrs, table_allowedAttributes hn]

/-- On a table tag, sanitization drops every attribute and re-serializes the
bare tag. -/
theorem renderToken_table {n : String} (hn : n ∈ TABLE_TAGS) (attrs : List HtmlAttr) :
    renderToken TABLE_TAGS (.startTag n attrs) = '<' :: (n.data ++ ['>']) := by
  show (if lowerStr n ∈ TABLE_TAGS then
      '<' :: ((lowerStr n).data ++ serializeAttrs (keepAttrs (lowerStr n) attrs) ++ ['>'])
    else escapeChars (rawStartTag n attrs)) = '<' :: (n.data ++ ['>'])
  rw [table_lower hn, if_pos hn, keepAttrs_table hn]
  simp [serializeAttrs]

theorem allowed_tags_wf :
    ∀ n ∈ ALLOWED_TAGS, n.data ≠ [] ∧ ∀ c ∈ n.data, isTagLetter c = true := by
  decide

theorem table_tags_wf :
    ∀ n ∈ TABLE_TAGS, n.data ≠ [] ∧ ∀ c ∈ n.data, isTagLetter c = true := by
  decide

/-- Scanner allow-list for the sanitized description alone. -/
def descAllow : List (List Char) := ALLOWED_TAGS.map String.data

/-- Scanner allow-list for the sanitized embedded data alone. -/
def tableAllow : List (List Char) := TABLE_TAGS.map String.data

/-- Tag names occurring in the assembled body when no screenshot is present:
the template tags p, b, a plus the two sanitizer allow-lists. -/
def BODY_TAGS : List String := "p" :: (ALLOWED_TAGS ++ TABLE_TAGS)

/-- Scanner allow-list for the assembled body. -/
def bodyAllow : List (List Char) := BODY_TAGS.map String.data

theorem descAllow_sub : ∀ n ∈ ALLOWED_TAGS, n.data ∈ descAllow := by decide

theorem tableAllow_sub : ∀ n ∈ TABLE_TAGS, n.data ∈ tableAllow := by decide

theorem bodyAllow_sub_allowed : ∀ n ∈ ALLOWED_TAGS, n.data ∈ bodyAllow := by decide

theorem bodyAllow_sub_table : ∀ n ∈ TABLE_TAGS, n.data ∈ bodyAllow := by decide

/-- A member of a mapped-data list whose characters agree with a string is
that string, membership-wise. -/
theorem mem_of_data_mem_map {t : String} {l : List String}
    (h : t.data ∈ l.map String.data) : t ∈ l := by
  rw [List.mem_map] at h
  obtain ⟨n, hn, he⟩ := h
  have : n = t := String.ext he
  exact this ▸ hn

/-! Section: Shape of the assembled body -/

/-- The assembled body split into its template segments and interpolated
parts, right-nested for scanning. -/
theorem assembledBody_data (c : NotificationContent) (msgid : String) :
    (assembledBody c msgid).data =
      "\n            <p>".data ++
        (cleanChars ALLOWED_TAGS (orEmptyToks c.description) ++
          ("</p>\n            <b><a href=\"".data ++
            ((pyStrOfOptStr c.url).data ++
              ("\">Explore in Superset</a></b><p></p>\n            ".data ++
                (cleanChars TABLE_TAGS (orEmptyToks c.embedded_data) ++
                  ("\n            ".data ++
                    ((if truthyOptBytes c.screenshot then imgTag msgid else "").data ++
                      "\n            ".data))))))) := by
  simp [assembledBody, sanitizedDescription, sanitizedEmbedded, bleachClean,
    strData_append, List.append_assoc]

/-- With no screenshot, the assembled body is accepted by the body scanner
provided the raw-interpolated url contains no less-than sign. -/
theorem scanTags_body (c : NotificationContent) (msgid : String)
    (hshot : truthyOptBytes c.screenshot = false)
    (hurl : '<' ∉ (pyStrOfOptStr c.url).data) :
    scanTags bodyAllow (assembledBody c msgid).data = true := by
  rw [scanTags, assembledBody_data, hshot]
  rw [scanChunk_append bodyAllow
    (by decide : scanChunk bodyAllow .top "\n            <p>".data = some .top)]
  rw [scanAux_top_clean bodyAllow allowed_tags_wf bodyAllow_sub_allowed]
  rw [scanChunk_append bodyAllow
    (by decide : scanChunk bodyAllow .top "</p>\n            <b><a href=\"".data = some .top)]
  rw [scanAux_top_noLt bodyAllow hurl]
  rw [scanChunk_append bodyAllow
    (by decide :
      scanChunk bodyAllow .top "\">Explore in Superset</a></b><p></p>\n            ".data =
        some .top)]
  rw [scanAux_top_clean bodyAllow table_tags_wf bodyAllow_sub_table]
  have himg : (if (false : Bool) = true then imgTag msgid else "") = "" := by simp
  rw [himg]
  decide

/-! Section: Helpers for the claim theorems -/

theorem containsSeq_trans {p q l : List Char} (h1 : containsSeq p q)
    (h2 : containsSeq q l) : containsSeq p l := by
  obtain ⟨u1, v1, rfl⟩ := h1
  obtain ⟨u2, v2, rfl⟩ := h2
  exact ⟨u2 ++ u1, v1 ++ v2, by simp⟩

/-- Without a truthy error text, the rendered body is the assembled
template. -/
theorem body_eq_assembled (c : NotificationContent) (msgid : String)
    (herr : truthyOptStr c.text = false) :
    (getContent c msgid).body = assembledBody c msgid := by
  simp [getContent, herr]

theorem body_contains_desc (c : NotificationContent) (msgid : String) :
    containsSeq (sanitizedDescription c).data (assembledBody c msgid).data := by
  rw [assembledBody_data]
  exact containsSeq_appL _ (containsSeq_appR _ (containsSeq_self _))

theorem body_contains_url (c : NotificationContent) (msgid : String) :
    containsSeq (pyStrOfOptStr c.url).data (assembledBody c msgid).data := by
  rw [assembledBody_data]
  exact containsSeq_appL _ (containsSeq_appL _ (containsSeq_appL _
    (containsSeq_appR _ (containsSeq_self _))))

theorem body_contains_embedded (c : NotificationContent) (msgid : String) :
    containsSeq (sanitizedEmbedded c).data (assembledBody c msgid).data := by
  rw [assembledBody_data]
  exact containsSeq_appL _ (containsSeq_appL _ (containsSeq_appL _
    (containsSeq_appL _ (containsSeq_appL _
      (containsSeq_appR _ (containsSeq_self _))))))

theorem body_contains_img (c : NotificationContent) (msgid : String)
    (hshot : truthyOptBytes c.screenshot = true) :
    containsSeq (imgTag msgid).data (assembledBody c msgid).data := by
  rw [assembledBody_data, hshot]
  have himg : (if (true : Bool) = true then imgTag msgid else "") = imgTag msgid := by simp
  rw [himg]
  exact containsSeq_appL _ (containsSeq_appL _ (containsSeq_appL _
    (containsSeq_appL _ (containsSeq_appL _ (containsSeq_appL _
      (containsSeq_appL _ (containsSeq_appR _ (containsSeq_self _))))))))

/-- The image tag carries the cid reference built from the message id. -/
theorem imgTag_contains_src (msgid : String) :
    containsSeq ("src=\"cid:" ++ msgid ++ "\"").data (imgTag msgid).data := by
  refine ⟨"<img width=\"1000px\" ".data, ['>'], ?_⟩
  have h1 : "<img width=\"1000px\" src=\"cid:".data =
      "<img width=\"1000px\" ".data ++ "src=\"cid:".data := by decide
  have h2 : "\">".data = '"' :: ['>'] := by decide
  have h3 : "\"".data = ['"'] := by decide
  rw [imgTag, strData_append, strData_append, h1, h2, strData_append, strData_append, h3]
  simp

theorem imgTag_contains_cid (msgid : String) :
    containsSeq ("cid:" ++ msgid).data (imgTag msgid).data := by
  refine ⟨"<img width=\"1000px\" src=\"".data, "\">".data, ?_⟩
  have h1 : "<img width=\"1000px\" src=\"cid:".data =
      "<img width=\"1000px\" src=\"".data ++ "cid:".data := by decide
  rw [imgTag, strData_append, strData_append, h1, strData_append]
  simp

/-- With no screenshot and a url free of markup, the body carries no img
tag at all. -/
theorem body_no_img (c : NotificationContent) (msgid : String)
    (herr : truthyOptStr c.text = false)
    (hshot : truthyOptBytes c.screenshot = false)
    (hurl : '<' ∉ (pyStrOfOptStr c.url).data) :
    ¬ TagOccurs "img".data (getContent c msgid).body.data := by
  rw [body_eq_assembled c msgid herr]
  have hscan := scanTags_body c msgid hshot hurl
  exact not_tagOccurs hscan (by decide) (by decide) (by decide)

/-! Section: Claim C1 -/

/-- Content witnessing that an ordinary inline tag survives description
sanitization: description carries a bold tag around hi. -/
def c1cex : NotificationContent :=
  NotificationContent.mk "report" none
    (some [.startTag "b" [], .text "hi", .endTag "b"])
    (some "http://example.com") none none none

/-- C1 counterexample: the claim says the sanitized description contains
zero HTML tags and that an ordinary inline tag like b present in the
description is absent from the rendered output.  In fact bleach.clean is
called with its default allow-list, which keeps b: the sanitized
description is literally the bold markup, and it reaches the rendered
body. -/
theorem claim1_counterexample :
    truthyOptStr c1cex.text = false ∧
    sanitizedDescription c1cex = "<b>hi</b>" ∧
    isSub "<b>hi</b>".data (getContent c1cex "MSGID").body.data = true := by
  refine ⟨rfl, ?_, ?_⟩ <;> decide

/-- C1 amended: for content without a truthy error text, the description is
sanitized with the bleach default allow-list, so a well-formed tag name
outside that list (script, img, and any other word not among a, abbr,
acronym, b, blockquote, code, em, i, li, ol, strong, ul) never occurs as
markup in the sanitized description; the sanitized description is
substituted contiguously into the rendered body; and the escaped text of
every character-data token of the description is preserved in it. -/
theorem claim1_holds (c : NotificationContent) (msgid : String) (t s : String)
    (herr : truthyOptStr c.text = false)
    (ht0 : t.data ≠ []) (ht1 : ∀ ch ∈ t.data, isTagLetter ch = true)
    (ht2 : t ∉ ALLOWED_TAGS) :
    ¬ TagOccurs t.data (sanitizedDescription c).data ∧
    containsSeq (sanitizedDescription c).data (getContent c msgid).body.data ∧
    (HtmlToken.text s ∈ orEmptyToks c.description →
      containsSeq (escapeChars s.data) (sanitizedDescription c).data) := by
  refine ⟨?_, ?_, ?_⟩
  · have hscan : scanTags descAllow (cleanChars ALLOWED_TAGS (orEmptyToks c.description)) = true :=
      scanTags_clean descAllow allowed_tags_wf descAllow_sub _
    exact not_tagOccurs hscan ht0 ht1 (fun hm => ht2 (mem_of_data_mem_map hm))
  · rw [body_eq_assembled c msgid herr]
    exact body_contains_desc c msgid
  · intro hs
    exact containsSeq_render hs

/-- Witness for the amended C1 at concrete inputs: script is a well-formed
tag name outside the default allow-list, and the c1cex description holds a
character-data token hi. -/
theorem claim1_witness :
    truthyOptStr c1cex.text = false ∧
    "script".data ≠ [] ∧ (∀ ch ∈ "script".data, isTagLetter ch = true) ∧
    "script" ∉ ALLOWED_TAGS ∧
    (¬ TagOccurs "script".data (sanitizedDescription c1cex).data ∧
     containsSeq (sanitizedDescription c1cex).data (getContent c1cex "MSGID").body.data ∧
     (HtmlToken.text "hi" ∈ orEmptyToks c1cex.description →
       containsSeq (escapeChars "hi".data) (sanitizedDescription c1cex).data)) :=
  ⟨by decide, by decide, by decide, by decide,
   claim1_holds c1cex "MSGID" "script" "hi" (by decide) (by decide) (by decide) (by decide)⟩

/-! Section: Claim C2 -/

/-- C2: sanitizing the embedded data keeps exactly the table tags, keeps no
attribute on them, never lets any other well-formed tag name occur as
markup, and preserves the (escaped) text content of every character-data
token.  Note on reading the claim: a disallowed tag is removed as markup in
the sense that bleach escapes it into inert text (strip=False), so its
escaped source text remains visible while its inner text is retained. -/
theorem claim2_holds (ed : List HtmlToken) (t n s : String)
    (attrs : List HtmlAttr) (pre post : List HtmlToken)
    (ht0 : t.data ≠ []) (ht1 : ∀ ch ∈ t.data, isTagLetter ch = true)
    (ht2 : t ∉ TABLE_TAGS) (hn : n ∈ TABLE_TAGS) :
    ¬ TagOccurs t.data (bleachClean TABLE_TAGS ed).data ∧
    (HtmlToken.startTag n attrs ∈ ed →
      TagOccurs n.data (bleachClean TABLE_TAGS ed).data) ∧
    (HtmlToken.text s ∈ ed →
      containsSeq (escapeChars s.data) (bleachClean TABLE_TAGS ed).data) ∧
    bleachClean TABLE_TAGS (pre ++ HtmlToken.startTag n attrs :: post) =
      bleachClean TABLE_TAGS (pre ++ HtmlToken.startTag n [] :: post) := by
  refine ⟨?_, ?_, ?_, ?_⟩
  · have hscan : scanTags tableAllow (cleanChars TABLE_TAGS ed) = true :=
      scanTags_clean tableAllow table_tags_wf tableAllow_sub ed
    exact not_tagOccurs hscan ht0 ht1 (fun hm => ht2 (mem_of_data_mem_map hm))
  · intro hmem
    obtain ⟨u0, v0, rfl⟩ := List.append_of_mem hmem
    refine ⟨cleanChars TABLE_TAGS u0, '>', cleanChars TABLE_TAGS v0, by decide, Or.inl ?_⟩
    show cleanChars TABLE_TAGS (u0 ++ HtmlToken.startTag n attrs :: v0) = _
    rw [cleanChars_split, renderToken_table hn]
    simp
  · intro hmem
    exact containsSeq_render hmem
  · show String.mk (cleanChars TABLE_TAGS (pre ++ HtmlToken.startTag n attrs :: post)) =
      String.mk (cleanChars TABLE_TAGS (pre ++ HtmlToken.startTag n [] :: post))
    rw [cleanChars_split, cleanChars_split, renderToken_table hn, renderToken_table hn]

/-- Witness for C2 at concrete inputs: an embedded fragment with a td tag
carrying an event-handler attribute, text 1 and a script element. -/
theorem claim2_witness :
    "script".data ≠ [] ∧ (∀ ch ∈ "script".data, isTagLetter ch = true) ∧
    "script" ∉ TABLE_TAGS ∧ "td" ∈ TABLE_TAGS ∧
    (¬ TagOccurs "script".data (bleachClean TABLE_TAGS
        [.startTag "td" [HtmlAttr.mk "onclick" "evil()"], .text "1", .endTag "td",
         .startTag "script" [], .text "bad()", .endTag "script"]).data ∧
     (HtmlToken.startTag "td" [HtmlAttr.mk "onclick" "evil()"] ∈
        ([.startTag "td" [HtmlAttr.mk "onclick" "evil()"], .text "1", .endTag "td",
          .startTag "script" [], .text "bad()", .endTag "script"] : List HtmlToken) →
       TagOccurs "td".data (bleachClean TABLE_TAGS
         [.startTag "td" [HtmlAttr.mk "onclick" "evil()"], .text "1", .endTag "td",
          .startTag "script" [], .text "bad()", .endTag "script"]).data) ∧
     (HtmlToken.text "1" ∈
        ([.startTag "td" [HtmlAttr.mk "onclick" "evil()"], .text "1", .endTag "td",
          .startTag "script" [], .text "bad()", .endTag "script"] : List HtmlToken) →
       containsSeq (escapeChars "1".data) (bleachClean TABLE_TAGS
         [.startTag "td" [HtmlAttr.mk "onclick" "evil()"], .text "1", .endTag "td",
          .startTag "script" [], .text "bad()", .endTag "script"]).data) ∧
     bleachClean TABLE_TAGS
        ([] ++ HtmlToken.startTag "td" [HtmlAttr.mk "onclick" "evil()"] ::
          [.text "1", .endTag "td"]) =
       bleachClean TABLE_TAGS ([] ++ HtmlToken.startTag "td" [] :: [.text "1", .endTag "td"])) :=
  ⟨by decide, by decide, by decide, by decide,
   claim2_holds
     [.startTag "td" [HtmlAttr.mk "onclick" "evil()"], .text "1", .endTag "td",
      .startTag "script" [], .text "bad()", .endTag "script"]
     "script" "td" "1" [HtmlAttr.mk "onclick" "evil()"] [] [.text "1", .endTag "td"]
     (by decide) (by decide) (by decide) (by decide)⟩

/-! Section: Claim C3 -/

/-- Content with errorText set to the empty string while success fields are
populated. -/
def c3cex : NotificationContent :=
  NotificationContent.mk "report" (some "") none none none (some [1]) (some [2])

/-- C3 counterexample: the claim says that whenever errorText is set the
renderer short-circuits to the error template with no images and no
attachments.  With errorText set to the empty string (falsy in Python), the
renderer takes the success path instead: it produces an inline image and a
csv attachment and the body is not the error template. -/
theorem claim3_counterexample :
    c3cex.text = some "" ∧
    (getContent c3cex "MSGID").images = some [("MSGID", [1])] ∧
    (getContent c3cex "MSGID").data = some [("report.csv", [2])] ∧
    (getContent c3cex "MSGID").body ≠ errorTemplate "" := by
  refine ⟨rfl, ?_, ?_, ?_⟩ <;> decide

/-- C3 amended: for content whose errorText is set to a non-empty string,
rendering short-circuits: the body is the error template applied to that
text and there are no inline images and no file attachments, regardless of
the other fields. -/
theorem claim3_holds (c : NotificationContent) (msgid : String) (t : String)
    (ht : c.text = some t) (hne : t ≠ "") :
    getContent c msgid = EmailContent.mk (errorTemplate t) none none := by
  have htr : truthyOptStr c.text = true := by
    rw [ht]; simpa [truthyOptStr] using hne
  unfold getContent
  rw [if_pos htr, ht]
  rfl

/-- Fully populated content with a non-empty error text. -/
def c3wit : NotificationContent :=
  NotificationContent.mk "r" (some "boom") (some [.text "d"]) (some "u")
    (some [.text "e"]) (some [7]) (some [8])

/-- Witness for the amended C3 at a concrete input. -/
theorem claim3_witness :
    c3wit.text = some "boom" ∧ "boom" ≠ "" ∧
    getContent c3wit "M" = EmailContent.mk (errorTemplate "boom") none none :=
  ⟨rfl, by decide, claim3_holds c3wit "M" "boom" rfl (by decide)⟩

/-! Section: Claim C4 -/

/-- Content whose screenshot is set but empty. -/
def c4cexA : NotificationContent :=
  NotificationContent.mk "r" none none (some "http://x") none (some []) none

/-- Content without a screenshot whose url smuggles an image reference. -/
def c4cexB : NotificationContent :=
  NotificationContent.mk "r" none none (some "<img src=\"cid:ghost\">") none none none

/-- C4 counterexample, both directions of the claim.  First, with the
screenshot set to the empty byte string (set but falsy), the inline-image
mapping is empty and the body has no img tag, against the claim that a set
screenshot yields exactly one entry.  Second, with no screenshot but a url
containing an img element, the rendered body does contain an image
reference with a dangling cid, because the url is interpolated verbatim. -/
theorem claim4_counterexample :
    c4cexA.screenshot = some [] ∧
    (getContent c4cexA "MSGID").images = none ∧
    isSub "<img".data (getContent c4cexA "MSGID").body.data = false ∧
    c4cexB.screenshot = none ∧
    isSub "<img src=\"cid:ghost\"".data (getContent c4cexB "MSGID").body.data = true := by
  refine ⟨rfl, ?_, ?_, rfl, ?_⟩ <;> decide

/-- C4 amended: for content without a truthy error text, if the screenshot
is set and non-empty the inline-image mapping is exactly the one entry
keyed by the generated message id, whose cid reference the body img tag
uses; if the screenshot is absent or empty the mapping is empty and,
provided the verbatim-interpolated url carries no markup, the body has no
img tag. -/
theorem claim4_holds (c : NotificationContent) (msgid : String)
    (herr : truthyOptStr c.text = false) :
    (truthyOptBytes c.screenshot = true →
      (getContent c msgid).images = some [(msgid, c.screenshot.getD [])] ∧
      containsSeq ("src=\"cid:" ++ msgid ++ "\"").data (getContent c msgid).body.data) ∧
    (truthyOptBytes c.screenshot = false →
      (getContent c msgid).images = none ∧
      ('<' ∉ (pyStrOfOptStr c.url).data →
        ¬ TagOccurs "img".data (getContent c msgid).body.data)) := by
  constructor
  · intro hshot
    refine ⟨by simp [getContent, herr, hshot], ?_⟩
    rw [body_eq_assembled c msgid herr]
    exact containsSeq_trans (imgTag_contains_src msgid) (body_contains_img c msgid hshot)
  · intro hshot
    refine ⟨by simp [getContent, herr, hshot], ?_⟩
    intro hurl
    exact body_no_img c msgid herr hshot hurl

/-- Content with a non-empty screenshot. -/
def c4wit : NotificationContent :=
  NotificationContent.mk "r" none none (some "http://x") none (some [5, 6]) none

/-- Witness for the amended C4 at a concrete input. -/
theorem claim4_witness :
    truthyOptStr c4wit.text = false ∧
    ((truthyOptBytes c4wit.screenshot = true →
      (getContent c4wit "MSGID").images = some [("MSGID", c4wit.screenshot.getD [])] ∧
      containsSeq ("src=\"cid:" ++ "MSGID" ++ "\"").data (getContent c4wit "MSGID").body.data) ∧
    (truthyOptBytes c4wit.screenshot = false →
      (getContent c4wit "MSGID").images = none ∧
      ('<' ∉ (pyStrOfOptStr c4wit.url).data →
        ¬ TagOccurs "img".data (getContent c4wit "MSGID").body.data))) :=
  ⟨by decide, claim4_holds c4wit "MSGID" (by decide)⟩

/-! Section: Claim C5 -/

/-- Content whose csv is set but empty. -/
def c5cex : NotificationContent :=
  NotificationContent.mk "Sales" none none none none none (some [])

/-- C5 counterexample: with the csv set to the empty byte string (set but
falsy in Python), the file-attachment mapping is empty, against the claim
that a set csv yields exactly one entry keyed Sales.csv. -/
theorem claim5_counterexample :
    c5cex.csv = some [] ∧ (getContent c5cex "MSGID").data = none := by
  refine ⟨rfl, ?_⟩ ; decide

/-- C5 amended: for content without a truthy error text, a non-empty csv
yields exactly one file attachment, keyed by the report name followed by
.csv and valued by the csv bytes; an absent or empty csv yields no file
attachments. -/
theorem claim5_holds (c : NotificationContent) (msgid : String)
    (herr : truthyOptStr c.text = false) :
    (truthyOptBytes c.csv = true →
      (getContent c msgid).data = some [(c.name ++ ".csv", c.csv.getD [])]) ∧
    (truthyOptBytes c.csv = false → (getContent c msgid).data = none) := by
  constructor <;> intro h <;> simp [getContent, herr, h]

/-- Content with a non-empty csv. -/
def c5wit : NotificationContent :=
  NotificationContent.mk "Sales" none none none none none (some [97, 44, 98])

/-- Witness for the amended C5 at a concrete input. -/
theorem claim5_witness :
    truthyOptStr c5wit.text = false ∧
    ((truthyOptBytes c5wit.csv = true →
      (getContent c5wit "M").data = some [("Sales" ++ ".csv", c5wit.csv.getD [])]) ∧
    (truthyOptBytes c5wit.csv = false → (getContent c5wit "M").data = none)) :=
  ⟨by decide, claim5_holds c5wit "M" (by decide)⟩

/-! Section: Claim C6 -/

/-- C6 counterexample: the claim says recipient resolution fails with
MalformedRecipientError on an unparsable blob or a missing target field.
No such error class exists in the codebase: _get_to is a bare
json.loads(...)["target"], so the failures are the builtin KeyError and
json.JSONDecodeError (and they propagate out of send unwrapped).  The happy
path of the claim does hold. -/
theorem claim6_counterexample :
    getTo "\x7b\x7d" = .error (.keyError "target") ∧
    getTo "notjson" = .error (.jsonDecodeError "Expecting value") ∧
    getTo "\x7b\"target\": \"a@b.com\"\x7d" = .ok (.str "a@b.com") :=
  ⟨rfl, rfl, rfl⟩

/-- C6 amended: resolving fails with json.JSONDecodeError whenever the blob
does not parse as JSON, fails with KeyError when it parses to an object
lacking the target field, and resolving the blob with target a@b.com yields
that address. -/
theorem claim6_holds (s m : String) (fields : List (String × PyJson)) :
    (jsonLoads s = .error m → getTo s = .error (.jsonDecodeError m)) ∧
    (jsonLoads s = .ok (.obj fields) → pyDictGet fields "target" = none →
      getTo s = .error (.keyError "target")) ∧
    getTo "\x7b\"target\": \"a@b.com\"\x7d" = .ok (.str "a@b.com") := by
  refine ⟨?_, ?_, rfl⟩
  · intro h; simp [getTo, h]
  · intro h1 h2; simp [getTo, h1, h2]

/-- Witness for the amended C6 at concrete blobs. -/
theorem claim6_witness :
    getTo "notjson" = .error (.jsonDecodeError "Expecting value") ∧
    getTo "\x7b\x7d" = .error (.keyError "target") ∧
    getTo "\x7b\"target\": \"a@b.com\"\x7d" = .ok (.str "a@b.com") :=
  ⟨(claim6_holds "notjson" "Expecting value" []).1 rfl,
   (claim6_holds "\x7b\x7d" "" []).2.1 rfl rfl,
   (claim6_holds "x" "" []).2.2⟩

/-! Section: Claim C7 -/

/-- C7: when the transport call fails, send fails with NotificationError
wrapping the transport exception (never swallowed), and the transport was
invoked exactly once (no internal retry). -/
theorem claim7_holds (pref : String) (c : NotificationContent)
    (msgid cfg : String) (target : PyJson) (ex : PyExc)
    (transport : SmtpCall → Except PyExc Unit)
    (hto : getTo cfg = .ok target)
    (hfail : ∀ a, transport a = .error ex) :
    (send pref c msgid cfg transport).1 = .error (.notificationError ex) ∧
    (send pref c msgid cfg transport).2.length = 1 := by
  simp [send, hto, hfail]

/-- Bare content for dispatcher witnesses. -/
def cSendWit : NotificationContent :=
  NotificationContent.mk "r" none none none none none none

/-- Witness for C7 at a concrete input with an always-failing transport. -/
theorem claim7_witness :
    getTo "\x7b\"target\": \"a@b.com\"\x7d" = .ok (.str "a@b.com") ∧
    ((send "P" cSendWit "M" "\x7b\"target\": \"a@b.com\"\x7d"
        (fun _ => .error (.typeError "boom"))).1 =
      .error (.notificationError (.typeError "boom")) ∧
     (send "P" cSendWit "M" "\x7b\"target\": \"a@b.com\"\x7d"
        (fun _ => .error (.typeError "boom"))).2.length = 1) :=
  ⟨rfl, claim7_holds "P" cSendWit "M" "\x7b\"target\": \"a@b.com\"\x7d"
    (.str "a@b.com") (.typeError "boom") (fun _ => .error (.typeError "boom"))
    rfl (fun _ => rfl)⟩

/-! Section: Claim C8 -/

/-- C8: every transport call that send makes has mime_subtype related,
dryrun false and an empty files list. -/
theorem claim8_holds (pref : String) (c : NotificationContent)
    (msgid cfg : String) (transport : SmtpCall → Except PyExc Unit)
    (call : SmtpCall) (hmem : call ∈ (send pref c msgid cfg transport).2) :
    call.mime_subtype = "related" ∧ call.dryrun = false ∧ call.files = [] := by
  cases hg : getTo cfg with
  | error e =>
      simp only [send, hg] at hmem
      exact absurd hmem (by simp)
  | ok target =>
      cases htr : transport (mkCall pref c msgid target) with
      | ok u =>
          simp only [send, hg, htr, List.mem_singleton] at hmem
          subst hmem
          exact ⟨rfl, rfl, rfl⟩
      | error ex =>
          simp only [send, hg, htr, List.mem_singleton] at hmem
          subst hmem
          exact ⟨rfl, rfl, rfl⟩

/-- Witness for C8 at a concrete input with a succeeding transport. -/
theorem claim8_witness :
    mkCall "P" cSendWit "M" (.str "a@b.com") ∈
      (send "P" cSendWit "M" "\x7b\"target\": \"a@b.com\"\x7d" (fun _ => .ok ())).2 ∧
    ((mkCall "P" cSendWit "M" (.str "a@b.com")).mime_subtype = "related" ∧
     (mkCall "P" cSendWit "M" (.str "a@b.com")).dryrun = false ∧
     (mkCall "P" cSendWit "M" (.str "a@b.com")).files = []) := by
  have hres : (send "P" cSendWit "M" "\x7b\"target\": \"a@b.com\"\x7d"
      (fun _ => .ok ())).2 = [mkCall "P" cSendWit "M" (.str "a@b.com")] := rfl
  have hmem : mkCall "P" cSendWit "M" (.str "a@b.com") ∈
      (send "P" cSendWit "M" "\x7b\"target\": \"a@b.com\"\x7d" (fun _ => .ok ())).2 := by
    rw [hres]; exact List.mem_singleton.mpr rfl
  exact ⟨hmem, claim8_holds "P" cSendWit "M"
    "\x7b\"target\": \"a@b.com\"\x7d" (fun _ => .ok ())
    (mkCall "P" cSendWit "M" (.str "a@b.com")) hmem⟩

/-! Section: Claim C9 -/

/-- Content whose url carries markup. -/
def c9cex : NotificationContent :=
  NotificationContent.mk "r" none none (some "\"><script>alert(1)</script>")
    none none none

/-- C9 counterexample: the claim says the report url is substituted escaped
per the HTML syntax of the channel.  It is substituted verbatim by gettext
%-interpolation: a url containing a script element reaches the body as
active markup, and no HTML-escaped form of it appears. -/
theorem claim9_counterexample :
    c9cex.url = some "\"><script>alert(1)</script>" ∧
    isSub "<script>".data (getContent c9cex "MSGID").body.data = true ∧
    isSub "&lt;script".data (getContent c9cex "MSGID").body.data = false := by
  refine ⟨rfl, ?_, ?_⟩ <;> decide

/-- C9 amended: for content without a truthy error text, the body
substitutes the sanitized description, the url verbatim (unescaped), and
the sanitized embedded data; when a (truthy) screenshot exists the body
carries the inline image tag bound to the generated message id through its
cid reference, and otherwise (for a markup-free url) it carries no img tag
at all. -/
theorem claim9_holds (c : NotificationContent) (msgid : String)
    (herr : truthyOptStr c.text = false) :
    containsSeq (sanitizedDescription c).data (getContent c msgid).body.data ∧
    containsSeq (pyStrOfOptStr c.url).data (getContent c msgid).body.data ∧
    containsSeq (sanitizedEmbedded c).data (getContent c msgid).body.data ∧
    (truthyOptBytes c.screenshot = true →
      containsSeq (imgTag msgid).data (getContent c msgid).body.data ∧
      containsSeq ("cid:" ++ msgid).data (imgTag msgid).data) ∧
    (truthyOptBytes c.screenshot = false →
      '<' ∉ (pyStrOfOptStr c.url).data →
      ¬ TagOccurs "img".data (getContent c msgid).body.data) := by
  rw [body_eq_assembled c msgid herr]
  refine ⟨body_contains_desc c msgid, body_contains_url c msgid,
    body_contains_embedded c msgid, ?_, ?_⟩
  · intro hshot
    exact ⟨body_contains_img c msgid hshot, imgTag_contains_cid msgid⟩
  · intro hshot hurl
    have h := body_no_img c msgid herr hshot hurl
    rw [body_eq_assembled c msgid herr] at h
    exact h

/-- Content with description, url, embedded data and screenshot all
present. -/
def c9wit : NotificationContent :=
  NotificationContent.mk "r" none (some [.text "d"]) (some "http://x")
    (some [.startTag "td" [], .text "1", .endTag "td"]) (some [3]) none

/-- Witness for the amended C9 at a concrete input. -/
theorem claim9_witness :
    truthyOptStr c9wit.text = false ∧
    (containsSeq (sanitizedDescription c9wit).data (getContent c9wit "M").body.data ∧
     containsSeq (pyStrOfOptStr c9wit.url).data (getContent c9wit "M").body.data ∧
     containsSeq (sanitizedEmbedded c9wit).data (getContent c9wit "M").body.data ∧
     (truthyOptBytes c9wit.screenshot = true →
       containsSeq (imgTag "M").data (getContent c9wit "M").body.data ∧
       containsSeq ("cid:" ++ "M").data (imgTag "M").data) ∧
     (truthyOptBytes c9wit.screenshot = false →
       '<' ∉ (pyStrOfOptStr c9wit.url).data →
       ¬ TagOccurs "img".data (getContent c9wit "M").body.data)) :=
  ⟨by decide, claim9_holds c9wit "M" (by decide)⟩

/-! Section: Claim C10 -/

/-- C10: subject, content and recipient are computed before the guarded
transport call.  A recipient-resolution failure (for instance the KeyError
or json.JSONDecodeError of a malformed blob) propagates out of send
unwrapped with no transport call made; when resolution succeeds, the
transport is called once with the assembled record, success is returned
as-is, and only an exception of the transport call itself is wrapped in
NotificationError. -/
theorem claim10_holds (pref : String) (c : NotificationContent)
    (msgid cfg : String) (transport : SmtpCall → Except PyExc Unit) :
    (∀ e, getTo cfg = .error e →
      send pref c msgid cfg transport = (.error e, [])) ∧
    (∀ target, getTo cfg = .ok target →
      (transport (mkCall pref c msgid target) = .ok () →
        send pref c msgid cfg transport = (.ok (), [mkCall pref c msgid target])) ∧
      (∀ ex, transport (mkCall pref c msgid target) = .error ex →
        send pref c msgid cfg transport =
          (.error (.notificationError ex), [mkCall pref c msgid target]))) := by
  constructor
  · intro e he
    simp [send, he]
  · intro target ht
    constructor
    · intro htr
      simp [send, ht, htr]
    · intro ex htr
      simp [send, ht, htr]

/-- Witness for C10 at concrete inputs: a blob lacking the target field
makes send fail with the bare KeyError and no transport call; with a good
blob the transport failure is wrapped. -/
theorem claim10_witness :
    send "P" cSendWit "M" "\x7b\x7d" (fun _ => .ok ()) =
      (.error (.keyError "target"), []) ∧
    send "P" cSendWit "M" "\x7b\"target\": \"a@b.com\"\x7d"
        (fun _ => .error (.typeError "down")) =
      (.error (.notificationError (.typeError "down")),
       [mkCall "P" cSendWit "M" (.str "a@b.com")]) :=
  ⟨(claim10_holds "P" cSendWit "M" "\x7b\x7d" (fun _ => .ok ())).1
      (.keyError "target") rfl,
   ((claim10_holds "P" cSendWit "M" "\x7b\"target\": \"a@b.com\"\x7d"
      (fun _ => .error (.typeError "down"))).2 (.str "a@b.com") rfl).2
      (.typeError "down") rfl⟩

end EmailReport
